import Mathlib

/-!
Verification development for the sheet-finance repository.

The core under verification consists of the recurring-transaction forecast
generator `generateForecastTransactions` (two variants are present in the
repository, in the files referred to here as `Part002` and `Part003`) and the
year-scoped balance aggregator `getBalanceData` (from `src/data/mockData.ts`).

Modelling conventions:

* All date values manipulated by the code are JavaScript `Date` objects built
  from local calendar components, or canonical `YYYY-MM-DD` strings.  A date
  string is represented here by its integer components (`SDate`); a `Date`
  object (which also carries a time of day) is represented by an `Instant`,
  a calendar date plus the milliseconds elapsed since local midnight.
  `new Date()` ("today"/"now") is passed explicitly as an `Instant`
  parameter.  String operations of the source (`substring(0, 7)`,
  `split('-')`, `parseInt`, `startsWith`) act on canonical zero-padded
  four-digit-year date strings and are represented by the corresponding
  component operations.
* JavaScript `Date` component setters normalize out-of-range components
  (month overflow rolls into later years, day overflow rolls into later
  months); `mkJSDate` implements exactly this normalization.
* Monetary amounts are modelled as exact integers (`Int`); the code only
  adds and subtracts them.
-/

/-- Gregorian leap-year test, as used by JavaScript `Date`. -/
def isLeapYear (y : Nat) : Bool :=
  (y % 4 == 0 && y % 100 != 0) || y % 400 == 0

/-- Number of days of month `m` (1-based) of year `y`. -/
def daysInMonth (y m : Nat) : Nat :=
  if m = 1 then 31
  else if m = 2 then (if isLeapYear y then 29 else 28)
  else if m = 3 then 31
  else if m = 4 then 30
  else if m = 5 then 31
  else if m = 6 then 30
  else if m = 7 then 31
  else if m = 8 then 31
  else if m = 9 then 30
  else if m = 10 then 31
  else if m = 11 then 30
  else 31

theorem daysInMonth_ge (y m : Nat) : 28 ≤ daysInMonth y m := by
  unfold daysInMonth
  repeat' split
  all_goals omega

theorem daysInMonth_le (y m : Nat) : daysInMonth y m ≤ 31 := by
  unfold daysInMonth
  repeat' split
  all_goals omega

/-- A calendar date given by its components (year, 1-based month, day).
Values of this type are not normalized by construction; normalization is
performed by `mkJSDate` exactly where the source constructs a `Date`. -/
structure SDate where
  year : Nat
  month : Nat
  day : Nat
deriving DecidableEq, Repr

/-- Day-overflow normalization of JavaScript `Date`, with explicit fuel:
while the day exceeds the length of the month, subtract that length and move
to the next month.  Each step decreases the day by at least 28, so fuel `d`
(supplied by `normDay`) is always sufficient. -/
def normDayAux : Nat → Nat → Nat → Nat → SDate
  | 0, y, m, d => ⟨y, m, d⟩
  | fuel + 1, y, m, d =>
    if daysInMonth y m < d then
      if m = 12 then normDayAux fuel (y + 1) 1 (d - daysInMonth y m)
      else normDayAux fuel y (m + 1) (d - daysInMonth y m)
    else ⟨y, m, d⟩

/-- Day-overflow normalization of JavaScript `Date`. -/
def normDay (y m d : Nat) : SDate := normDayAux d y m d

/-- `new Date(y, mIdx, d)` for a 0-based month index `mIdx` and day `d`:
month overflow rolls into later years, then day overflow is normalized. -/
def mkJSDate (y mIdx d : Nat) : SDate :=
  normDay (y + mIdx / 12) (mIdx % 12 + 1) d

/-- A normalized calendar date: month in 1..12 and day in 1..length of
the month.  Every value stored in a JavaScript `Date` is of this shape. -/
def SDate.Normalized (a : SDate) : Prop :=
  1 ≤ a.month ∧ a.month ≤ 12 ∧ 1 ≤ a.day ∧ a.day ≤ daysInMonth a.year a.month

instance (a : SDate) : Decidable a.Normalized := by
  unfold SDate.Normalized; exact inferInstance

/-- Number of months elapsed since month 1 of year 0. -/
def monthsIdx (a : SDate) : Nat := a.year * 12 + (a.month - 1)

/-- Linear key realizing the chronological order on normalized dates. -/
def SDate.key (a : SDate) : Nat := monthsIdx a * 32 + a.day

/-- Chronological strict order on dates, componentwise (the order of the
underlying JavaScript timestamps, for normalized components). -/
def dateLT (a b : SDate) : Prop :=
  a.year < b.year ∨ (a.year = b.year ∧
    (a.month < b.month ∨ (a.month = b.month ∧ a.day < b.day)))

instance (a b : SDate) : Decidable (dateLT a b) := by
  unfold dateLT; exact inferInstance

/-- Chronological non-strict order on dates. -/
def dateLE (a b : SDate) : Prop := dateLT a b ∨ a = b

instance (a b : SDate) : Decidable (dateLE a b) := by
  unfold dateLE; exact inferInstance

/-- A JavaScript `Date` value at full precision: a calendar date plus the
milliseconds elapsed since local midnight. -/
structure Instant where
  date : SDate
  tod : Nat
deriving DecidableEq, Repr

/-- Strict order on instants (timestamp order). -/
def instLT (a b : Instant) : Prop :=
  dateLT a.date b.date ∨ (a.date = b.date ∧ a.tod < b.tod)

instance (a b : Instant) : Decidable (instLT a b) := by
  unfold instLT; exact inferInstance

/-- Non-strict order on instants (timestamp order). -/
def instLE (a b : Instant) : Prop := instLT a b ∨ a = b

instance (a b : Instant) : Decidable (instLE a b) := by
  unfold instLE; exact inferInstance

theorem normDayAux_normalized (fuel y m d : Nat) (hm1 : 1 ≤ m) (hm2 : m ≤ 12)
    (hd1 : 1 ≤ d) (hd2 : d ≤ fuel) : (normDayAux fuel y m d).Normalized := by
  induction fuel generalizing y m d with
  | zero => omega
  | succ fuel ih =>
    unfold normDayAux
    split
    · next h =>
      have h28 := daysInMonth_ge y m
      split
      · exact ih (y + 1) 1 (d - daysInMonth y m) (by omega) (by omega)
          (by omega) (by omega)
      · exact ih y (m + 1) (d - daysInMonth y m) (by omega) (by omega)
          (by omega) (by omega)
    · next h => exact ⟨hm1, hm2, hd1, Nat.le_of_not_lt h⟩

theorem mkJSDate_normalized (y mIdx d : Nat) (hd : 1 ≤ d) :
    (mkJSDate y mIdx d).Normalized := by
  unfold mkJSDate normDay
  exact normDayAux_normalized d _ _ d (by omega) (by omega) hd (Nat.le_refl d)

theorem normDayAux_key_ge (fuel y m d : Nat) (hm1 : 1 ≤ m) (hm2 : m ≤ 12)
    (hd2 : d ≤ fuel) :
    (y * 12 + (m - 1)) * 32 + d ≤ (normDayAux fuel y m d).key := by
  induction fuel generalizing y m d with
  | zero =>
    unfold normDayAux SDate.key monthsIdx
    dsimp only
    omega
  | succ fuel ih =>
    unfold normDayAux
    split
    · next h =>
      have h28 := daysInMonth_ge y m
      have h31 := daysInMonth_le y m
      split
      · next hm =>
        have := ih (y + 1) 1 (d - daysInMonth y m) (by omega) (by omega)
          (by omega)
        subst hm
        omega
      · next hm =>
        have := ih y (m + 1) (d - daysInMonth y m) (by omega) (by omega)
          (by omega)
        omega
    · next h =>
      unfold SDate.key monthsIdx
      dsimp only
      omega

theorem mkJSDate_key_ge (y mIdx d : Nat) :
    (y * 12 + mIdx) * 32 + d ≤ (mkJSDate y mIdx d).key := by
  unfold mkJSDate normDay
  have := normDayAux_key_ge d (y + mIdx / 12) (mIdx % 12 + 1) d
    (by omega) (by omega) (Nat.le_refl d)
  have hdiv : (y + mIdx / 12) * 12 + (mIdx % 12 + 1 - 1) = y * 12 + mIdx := by
    have := Nat.div_add_mod mIdx 12
    omega
  omega

theorem key_lt_of_dateLT (a b : SDate) (ha : a.Normalized) (hb : b.Normalized)
    (h : dateLT a b) : a.key < b.key := by
  obtain ⟨y1, m1, d1⟩ := a
  obtain ⟨y2, m2, d2⟩ := b
  obtain ⟨ha1, ha2, ha3, ha4⟩ := ha
  obtain ⟨hb1, hb2, hb3, hb4⟩ := hb
  have ha5 := daysInMonth_le y1 m1
  have hb5 := daysInMonth_le y2 m2
  simp only [dateLT] at h
  simp only [SDate.key, monthsIdx] at *
  omega

theorem key_le_of_dateLE (a b : SDate) (ha : a.Normalized) (hb : b.Normalized)
    (h : dateLE a b) : a.key ≤ b.key := by
  rcases h with h | h
  · exact Nat.le_of_lt (key_lt_of_dateLT a b ha hb h)
  · subst h; exact Nat.le_refl _

theorem dateLT_or_eq_or_gt (a b : SDate) : dateLT a b ∨ a = b ∨ dateLT b a := by
  obtain ⟨y1, m1, d1⟩ := a
  obtain ⟨y2, m2, d2⟩ := b
  simp only [dateLT, SDate.mk.injEq]
  omega

theorem dateLT_of_key_lt (a b : SDate) (ha : a.Normalized) (hb : b.Normalized)
    (h : a.key < b.key) : dateLT a b := by
  rcases dateLT_or_eq_or_gt a b with hlt | heq | hgt
  · exact hlt
  · subst heq; omega
  · have := key_lt_of_dateLT b a hb ha hgt
    omega

theorem dateLE_of_key_le (a b : SDate) (ha : a.Normalized) (hb : b.Normalized)
    (h : a.key ≤ b.key) : dateLE a b := by
  rcases dateLT_or_eq_or_gt a b with hlt | heq | hgt
  · exact Or.inl hlt
  · exact Or.inr heq
  · have := key_lt_of_dateLT b a hb ha hgt
    omega

theorem dateLE_of_instLE (a b : Instant) (h : instLE a b) :
    dateLE a.date b.date := by
  rcases h with h | h
  · rcases h with h | ⟨h, _⟩
    · exact Or.inl h
    · exact Or.inr h
  · subst h; exact Or.inr rfl

theorem instLE_trans (a b c : Instant) (h1 : instLE a b) (h2 : instLE b c) :
    instLE a c := by
  obtain ⟨⟨y1, m1, d1⟩, t1⟩ := a
  obtain ⟨⟨y2, m2, d2⟩, t2⟩ := b
  obtain ⟨⟨y3, m3, d3⟩, t3⟩ := c
  simp only [instLE, instLT, dateLT, SDate.mk.injEq, Instant.mk.injEq] at *
  omega

/-- `date.setMonth(date.getMonth() + months)` on a full `Date` value: plain
month addition with JavaScript normalization (a day beyond the end of the
target month rolls over into the following month); the time of day is kept.
Both variants compute the expansion horizon `endDate` this way. -/
def setMonthAdd (date : Instant) (months : Nat) : Instant :=
  ⟨mkJSDate date.date.year (date.date.month - 1 + months) date.date.day,
    date.tod⟩

theorem setMonthAdd_key_gt (a : Instant) (k : Nat) (hk : 1 ≤ k)
    (ha : a.date.Normalized) : a.date.key < (setMonthAdd a k).date.key := by
  obtain ⟨h1, h2, h3, h4⟩ := ha
  have := mkJSDate_key_ge a.date.year (a.date.month - 1 + k) a.date.day
  unfold setMonthAdd
  dsimp only
  unfold SDate.key monthsIdx at *
  omega

theorem setMonthAdd_normalized (a : Instant) (k : Nat)
    (ha : a.date.Normalized) : (setMonthAdd a k).date.Normalized := by
  obtain ⟨h1, h2, h3, h4⟩ := ha
  exact mkJSDate_normalized _ _ _ h3

/-- Truthiness of an optional numeric field in JavaScript:
`undefined` and `0` are falsy. -/
def jsTruthy : Option Nat → Bool
  | none => false
  | some n => decide (n ≠ 0)

/-- Left zero-pad to two digits, as `String(n).padStart(2, '0')`. -/
def pad2 (n : Nat) : String :=
  if n < 10 then "0" ++ toString n else toString n

/-- `formatDate` of the source: renders a date as `YYYY-MM-DD` from its
local components (year unpadded, month and day two-digit padded). -/
def formatDate (a : SDate) : String :=
  toString a.year ++ "-" ++ pad2 a.month ++ "-" ++ pad2 a.day

/-- `RecurringTransaction` of `types/finance.ts`.  Dates are represented by
their components, amounts by exact integers, string-literal unions by
strings, and the optional `meses_duracao` by an `Option`. -/
structure RecurringTransaction where
  id : String
  descricao : String
  tipo : String
  valor : Int
  categoria : String
  forma_pagamento : String
  data_inicio : SDate
  recorrencia : String
  fim_tipo : String
  meses_duracao : Option Nat
  ativo : Bool
  observacao : Option String
deriving DecidableEq, Repr

/-- `ForecastTransaction` of `types/finance.ts`. -/
structure ForecastTransaction where
  id : String
  recurring_id : String
  data : SDate
  tipo : String
  descricao : String
  valor : Int
  categoria : String
  forma_pagamento : String
  observacao : Option String
deriving DecidableEq, Repr

/-- `Transaction` of `types/finance.ts` (fields read by the aggregator,
plus identity fields). -/
structure Transaction where
  id : String
  data : SDate
  tipo : String
  descricao : String
  valor : Int
  categoria : String
  forma_pagamento : String
deriving DecidableEq, Repr

/-- `GoalTransaction` of `types/finance.ts`. -/
structure GoalTransaction where
  id : String
  goal_id : String
  tipo : String
  valor : Int
  data : SDate
deriving DecidableEq, Repr

/-- Stable insertion of a forecast into a date-sorted list: the new element
goes before the first strictly-later element and after equal dates coming
earlier in the original list. -/
def insertByData (a : ForecastTransaction) :
    List ForecastTransaction → List ForecastTransaction
  | [] => [a]
  | b :: l => if dateLE a.data b.data then a :: b :: l else b :: insertByData a l

/-- The ascending-by-date stable sort applied to the emitted forecasts.
`part_002` compares the canonical `YYYY-MM-DD` strings, `part_003` the
timestamps of the parsed dates; both comparators realize the chronological
order on dates represented here componentwise, and JavaScript's
`Array.prototype.sort` is stable, so one stable sort models both. -/
def sortByData : List ForecastTransaction → List ForecastTransaction
  | [] => []
  | x :: xs => insertByData x (sortByData xs)

theorem mem_insertByData (a c : ForecastTransaction)
    (l : List ForecastTransaction) :
    c ∈ insertByData a l ↔ c = a ∨ c ∈ l := by
  induction l with
  | nil => simp [insertByData]
  | cons b l ih =>
    unfold insertByData
    split
    · simp
    · simp only [List.mem_cons, ih]
      tauto

theorem mem_sortByData (c : ForecastTransaction)
    (l : List ForecastTransaction) : c ∈ sortByData l ↔ c ∈ l := by
  induction l with
  | nil => simp [sortByData]
  | cons x xs ih =>
    unfold sortByData
    rw [mem_insertByData]
    simp [ih]

theorem length_insertByData (a : ForecastTransaction)
    (l : List ForecastTransaction) :
    (insertByData a l).length = l.length + 1 := by
  induction l with
  | nil => simp [insertByData]
  | cons b l ih =>
    unfold insertByData
    split
    · simp
    · simp [ih]

theorem length_sortByData (l : List ForecastTransaction) :
    (sortByData l).length = l.length := by
  induction l with
  | nil => simp [sortByData]
  | cons x xs ih =>
    unfold sortByData
    rw [length_insertByData]
    simp [ih]

namespace Part002

/-- The `switch (recurring.recorrencia)` of `part_002`, mapping each
recognized recurrence to its month step; `none` models the `default`
branch (which returns from the per-definition callback). -/
def stepMonths (s : String) : Option Nat :=
  if s = "mensal" then some 1
  else if s = "bimestral" then some 2
  else if s = "trimestral" then some 3
  else if s = "semestral" then some 6
  else if s = "anual" then some 12
  else none

/-- `addMonths` of `part_002`: `result.setMonth(result.getMonth() + months)`
with no day clamping — a day beyond the end of the target month rolls over
into the following month. -/
def addMonths (date : Instant) (months : Nat) : Instant :=
  setMonthAdd date months

/-- The `while` loop of `part_002`'s `generateForecastTransactions`.  The
fuel argument is `maxOccurrences - occurrenceCount`; since the loop guard
includes `occurrenceCount < maxOccurrences`, the remaining occurrence budget
is an exact structural bound, not an approximation. -/
def expandLoop (r : RecurringTransaction) (maxDate : Instant) :
    Nat → Instant → List ForecastTransaction
  | 0, _ => []
  | remaining + 1, currentDate =>
    if instLE currentDate maxDate then
      let f : ForecastTransaction :=
        { id := r.id ++ "-" ++ formatDate currentDate.date
          recurring_id := r.id
          data := currentDate.date
          tipo := r.tipo
          descricao := r.descricao
          valor := r.valor
          categoria := r.categoria
          forma_pagamento := r.forma_pagamento
          observacao := r.observacao }
      match stepMonths r.recorrencia with
      | some k => f :: expandLoop r maxDate remaining (addMonths currentDate k)
      | none => [f]
    else []

/-- The body of the `forEach` over definitions in `part_002`:
inactive definitions return immediately; the start date is parsed with
`new Date(y, m - 1, d)`; an `after_months` limit already in the past skips
the definition; iteration starts at `max(startDate, today)` and runs to the
earlier of the limit and the horizon, capped at 1000 occurrences. -/
def expandDef (today endDate : Instant) (r : RecurringTransaction) :
    List ForecastTransaction :=
  if r.ativo = false then []
  else
    let startDate : Instant :=
      ⟨mkJSDate r.data_inicio.year (r.data_inicio.month - 1) r.data_inicio.day,
        0⟩
    if instLT endDate startDate then []
    else
      let endDateLimit : Option Instant :=
        if r.fim_tipo = "after_months" ∧ jsTruthy r.meses_duracao = true then
          some (addMonths startDate (r.meses_duracao.getD 0))
        else none
      let shouldEnd : Bool :=
        match endDateLimit with
        | some l => decide (instLT l today)
        | none => false
      if shouldEnd then []
      else
        let currentDate := if instLT today startDate then startDate else today
        let maxDate :=
          match endDateLimit with
          | some l => if instLT l endDate then l else endDate
          | none => endDate
        expandLoop r maxDate 1000 currentDate

/-- `generateForecastTransactions` of `part_002`: compute the horizon
`endDate = today + monthsAhead` months via `setMonth`, expand every
definition in order, and sort the emitted forecasts ascending by date. -/
def generateForecastTransactions (recurringTransactions : List RecurringTransaction)
    (monthsAhead : Nat) (today : Instant) : List ForecastTransaction :=
  let endDate := setMonthAdd today monthsAhead
  sortByData (recurringTransactions.flatMap (expandDef today endDate))

end Part002

namespace Part003

/-- The `recurrenceMonths` record of `part_003`; indexing it with an
unrecognized key yields `undefined`, modelled by `none`. -/
def recurrenceMonths (s : String) : Option Nat :=
  if s = "mensal" then some 1
  else if s = "bimestral" then some 2
  else if s = "trimestral" then some 3
  else if s = "semestral" then some 6
  else if s = "anual" then some 12
  else none

/-- `addMonths` of `part_003`: set the month to the target month with the
day forced to 1 (avoiding rollover), then use the original day or the last
day of the target month if the original day does not exist there. -/
def addMonths (date : SDate) (months : Nat) : SDate :=
  let targetMonth := date.month - 1 + months
  let y := date.year + targetMonth / 12
  let m := targetMonth % 12 + 1
  let lastDayOfMonth := daysInMonth y m
  ⟨y, m, min date.day lastDayOfMonth⟩

/-- `monthsSinceStart` of `part_003`:
`(cur.getFullYear() - start.getFullYear()) * 12 + (cur.getMonth() - start.getMonth())`. -/
def monthsSince (startDate currentDate : SDate) : Int :=
  ((currentDate.year : Int) - (startDate.year : Int)) * 12 +
    (((currentDate.month : Int) - 1) - ((startDate.month : Int) - 1))

/-- The `while` loop of `part_003`'s `generateForecastTransactions`, over an
explicit fuel.  The source loop has no occurrence cap; `defFuel` below
supplies fuel that is provably larger than the number of iterations the
source loop performs, so the fuelled function agrees with it. -/
def expandLoop (rt : RecurringTransaction) (today endDate : Instant)
    (startDate : SDate) :
    Nat → SDate → Nat → List ForecastTransaction
  | 0, _, _ => []
  | fuel + 1, currentDate, occurrenceCount =>
    if instLE ⟨currentDate, 0⟩ endDate then
      if rt.fim_tipo = "after_months" ∧ jsTruthy rt.meses_duracao = true ∧
          (rt.meses_duracao.getD 0 : Int) ≤ monthsSince startDate currentDate
      then []
      else
        let emitted : List ForecastTransaction :=
          if instLE today ⟨currentDate, 0⟩ then
            [{ id := rt.id ++ "-" ++ toString occurrenceCount
               recurring_id := rt.id
               data := currentDate
               tipo := rt.tipo
               descricao := rt.descricao
               valor := rt.valor
               categoria := rt.categoria
               forma_pagamento := rt.forma_pagamento
               observacao := rt.observacao }]
          else []
        match recurrenceMonths rt.recorrencia with
        | some k =>
          emitted ++
            expandLoop rt today endDate startDate fuel
              (addMonths currentDate k) (occurrenceCount + 1)
        | none => emitted
    else []

/-- Fuel sufficient for `expandLoop`: every iteration with a recognized
recurrence advances `currentDate` by at least one month, an unrecognized
recurrence stops after one iteration, and the loop guard bounds
`currentDate` by `endDate`. -/
def defFuel (endDate : Instant) (startDate : SDate) : Nat :=
  monthsIdx endDate.date + 2 - monthsIdx startDate

/-- The per-definition expansion of `part_003` (the body of the `forEach`
over active definitions). -/
def expandDef (today endDate : Instant) (rt : RecurringTransaction) :
    List ForecastTransaction :=
  let startDate : SDate :=
    mkJSDate rt.data_inicio.year (rt.data_inicio.month - 1) rt.data_inicio.day
  expandLoop rt today endDate startDate (defFuel endDate startDate) startDate 0

/-- `generateForecastTransactions` of `part_003`: compute the horizon via
`setMonth`, expand every active definition in order, and sort ascending by
date. -/
def generateForecastTransactions (recurringTransactions : List RecurringTransaction)
    (monthsAhead : Nat) (today : Instant) : List ForecastTransaction :=
  let endDate := setMonthAdd today monthsAhead
  sortByData
    (((recurringTransactions.filter (fun rt => rt.ativo)).flatMap
      (expandDef today endDate)))

end Part003

/-- The value type of the monthly accumulation map inside `getBalanceData`. -/
structure MonthData where
  entradas : Int
  saidas : Int
  investimentos : Int
  investimentos_metas : Int
deriving DecidableEq, Repr

/-- The zero entry each month is initialized with. -/
def emptyMonthData : MonthData := ⟨0, 0, 0, 0⟩

/-- `BalanceData` of `types/finance.ts`.  The `monthKey` string `YYYY-MM` is
represented by its `(year, month)` components; `receita_prevista` is never
set by `getBalanceData` and is omitted. -/
structure BalanceData where
  month : String
  monthKey : Nat × Nat
  entradas : Int
  saidas : Int
  investimentos : Int
  investimentos_metas : Int
  saldo : Int
  saldo_acumulado : Int
deriving DecidableEq, Repr

/-- Month label: concrete model of
`toLocaleDateString('pt-BR', { month: 'short', year: '2-digit' })`
(for example `jan/24`); display-only data. -/
def monthLabel (y m : Nat) : String :=
  (["jan", "fev", "mar", "abr", "mai", "jun", "jul", "ago", "set", "out",
    "nov", "dez"].getD (m - 1) "") ++ "/" ++ pad2 (y % 100)

/-- `const selectedYear = year || new Date().getFullYear()`: a missing or
zero (falsy) `year` argument falls back to the current year. -/
def selectedYearOf (year : Option Nat) (currentYear : Nat) : Nat :=
  match year with
  | none => currentYear
  | some y => if y = 0 then currentYear else y

/-- `createDateFromString` of `getBalanceData`: `new Date(y, m - 1, d)` from
the parsed string components (timezone-free local construction). -/
def createDateFromString (d : SDate) : SDate :=
  mkJSDate d.year (d.month - 1) d.day

/-- The forecast-occurrence filter of `getBalanceData`: forecasts take part
only when the selected year is the current year or a future year, only when
dated in the selected year, and, in the current year, only when the local
midnight of their date is not before `today` (a full-precision `new Date()`
carrying the current time of day). -/
def filteredForecastTransactions
    (forecastTransactions : Option (List ForecastTransaction))
    (selectedYear : Nat) (today : Instant) : List ForecastTransaction :=
  let currentYear := today.date.year
  let isFutureYear := currentYear < selectedYear
  let isCurrentYear := selectedYear = currentYear
  match forecastTransactions with
  | none => []
  | some fts =>
    if isFutureYear ∨ isCurrentYear then
      fts.filter (fun ft =>
        if ft.data.year = selectedYear then
          if isCurrentYear then
            decide (instLE today ⟨createDateFromString ft.data, 0⟩)
          else true
        else false)
    else []

/-- One step of the inner month-sum loop of the carry-forward: when the
transaction's `YYYY-MM` key equals the current month key, accumulate its
amount into the month's income (`Receita`) or expense component. -/
def prevMonthStep (previousYear month : Nat) (p : Int × Int)
    (t : Transaction) : Int × Int :=
  if t.data.year = previousYear ∧ t.data.month = month then
    if t.tipo = "Receita" then (p.1 + t.valor, p.2)
    else (p.1, p.2 + t.valor)
  else p

/-- The previous-year carry-forward of `getBalanceData` (its
`initialAccumulated` variable): for a selected year above 1, sum
`(incoming - outgoing)` over the twelve months of the previous year from
realized transactions only; otherwise zero. -/
def initialAccumulated (transactions : List Transaction)
    (selectedYear : Nat) : Int :=
  if 1 < selectedYear then
    let previousYear := selectedYear - 1
    let prevYearTransactions :=
      transactions.filter (fun t => t.data.year == previousYear)
    (List.range' 1 12).foldl
      (fun prevAccumulated month =>
        let sums := prevYearTransactions.foldl
          (prevMonthStep previousYear month) (0, 0)
        prevAccumulated + (sums.1 - sums.2))
      0
  else 0

/-- The monthly map right after its initialization loop: exactly the twelve
keys `(selectedYear, 1)` … `(selectedYear, 12)` are present, each bound to
the zero entry. -/
def initMonthlyMap (selectedYear : Nat) : Nat × Nat → Option MonthData :=
  fun k =>
    if k.1 = selectedYear ∧ 1 ≤ k.2 ∧ k.2 ≤ 12 then some emptyMonthData
    else none

/-- Processing of one realized transaction: keys outside the selected year
are dropped (the `startsWith` guard), keys absent from the map are ignored,
income adds to `entradas`, expenses add to `saidas` and, for the
`Investimentos` category, to `investimentos`. -/
def applyTransaction (selectedYear : Nat)
    (mmap : Nat × Nat → Option MonthData) (t : Transaction) :
    Nat × Nat → Option MonthData :=
  let monthKey := (t.data.year, t.data.month)
  if monthKey.1 ≠ selectedYear then mmap
  else
    match mmap monthKey with
    | none => mmap
    | some current =>
      let nextCurrent :=
        if t.tipo = "Receita" then
          { current with entradas := current.entradas + t.valor }
        else
          let c2 := { current with saidas := current.saidas + t.valor }
          if t.categoria = "Investimentos" then
            { c2 with investimentos := c2.investimentos + t.valor }
          else c2
      fun k => if k = monthKey then some nextCurrent else mmap k

/-- Processing of one (already filtered, deposit-only) goal transaction:
its amount adds to `investimentos_metas` of its month. -/
def applyGoalTransaction (selectedYear : Nat)
    (mmap : Nat × Nat → Option MonthData) (gt : GoalTransaction) :
    Nat × Nat → Option MonthData :=
  let monthKey := (gt.data.year, gt.data.month)
  if monthKey.1 ≠ selectedYear then mmap
  else
    match mmap monthKey with
    | none => mmap
    | some current =>
      let nextCurrent :=
        { current with
          investimentos_metas := current.investimentos_metas + gt.valor }
      fun k => if k = monthKey then some nextCurrent else mmap k

/-- Processing of one retained forecast occurrence: same rules as a
realized transaction. -/
def applyForecastTransaction (selectedYear : Nat)
    (mmap : Nat × Nat → Option MonthData) (ft : ForecastTransaction) :
    Nat × Nat → Option MonthData :=
  let monthKey := (ft.data.year, ft.data.month)
  if monthKey.1 ≠ selectedYear then mmap
  else
    match mmap monthKey with
    | none => mmap
    | some current =>
      let nextCurrent :=
        if ft.tipo = "Receita" then
          { current with entradas := current.entradas + ft.valor }
        else
          let c2 := { current with saidas := current.saidas + ft.valor }
          if ft.categoria = "Investimentos" then
            { c2 with investimentos := c2.investimentos + ft.valor }
          else c2
      fun k => if k = monthKey then some nextCurrent else mmap k

/-- The final `for month in 1..12` loop of `getBalanceData`: one
`BalanceData` entry per month in order, with the accumulated balance
threaded through; the defensive `continue` on a key of the wrong year is
kept (it can never fire, since the key is built from the selected year). -/
def buildMonths (selectedYear : Nat) (mmap : Nat × Nat → Option MonthData) :
    List Nat → Int → List BalanceData
  | [], _ => []
  | month :: rest, accumulated =>
    let monthKey : Nat × Nat := (selectedYear, month)
    if monthKey.1 ≠ selectedYear then
      buildMonths selectedYear mmap rest accumulated
    else
      match mmap monthKey with
      | some monthData =>
        let saldo := monthData.entradas - monthData.saidas
        let acc := accumulated + saldo
        { month := monthLabel selectedYear month
          monthKey := monthKey
          entradas := monthData.entradas
          saidas := monthData.saidas
          investimentos := monthData.investimentos
          investimentos_metas := monthData.investimentos_metas
          saldo := saldo
          saldo_acumulado := acc } :: buildMonths selectedYear mmap rest acc
      | none =>
        { month := monthLabel selectedYear month
          monthKey := monthKey
          entradas := 0
          saidas := 0
          investimentos := 0
          investimentos_metas := 0
          saldo := 0
          saldo_acumulado := accumulated } ::
          buildMonths selectedYear mmap rest accumulated

/-- `getBalanceData` of `src/data/mockData.ts`: filter the three input
streams to the selected year, compute the previous-year carry-forward from
realized transactions, accumulate the three streams into the twelve monthly
buckets, build the final list with the running balance, and return it after
the defensive year-verification filter. -/
def getBalanceData (transactions : List Transaction)
    (goalTransactions : List GoalTransaction) (year : Option Nat)
    (forecastTransactions : Option (List ForecastTransaction))
    (today : Instant) : List BalanceData :=
  let selectedYear := selectedYearOf year today.date.year
  let filteredTransactions :=
    transactions.filter (fun t => t.data.year == selectedYear)
  let filteredGoalTransactions :=
    goalTransactions.filter
      (fun gt => gt.data.year == selectedYear && gt.tipo == "deposito")
  let filteredFts :=
    filteredForecastTransactions forecastTransactions selectedYear today
  let initAcc := initialAccumulated transactions selectedYear
  let m1 := filteredTransactions.foldl (applyTransaction selectedYear)
    (initMonthlyMap selectedYear)
  let m2 := filteredGoalTransactions.foldl (applyGoalTransaction selectedYear)
    m1
  let m3 := filteredFts.foldl (applyForecastTransaction selectedYear) m2
  let finalBalanceData := buildMonths selectedYear m3 (List.range' 1 12) initAcc
  let verified :=
    finalBalanceData.filter (fun item => item.monthKey.1 == selectedYear)
  if verified.length = 12 then verified else finalBalanceData

/-- Sample reference instant: 2024-01-01 at local midnight. -/
def sampleMidnight2024 : Instant := ⟨⟨2024, 1, 1⟩, 0⟩

/-- Sample reference instant: 2023-12-15, one hour past local midnight. -/
def sampleDec2023 : Instant := ⟨⟨2023, 12, 15⟩, 3600000⟩

/-- A month-end monthly definition starting 2024-01-31, never ending. -/
def sampleMonthEndDef : RecurringTransaction :=
  { id := "r1", descricao := "aluguel", tipo := "Despesa", valor := 10,
    categoria := "Moradia", forma_pagamento := "PIX",
    data_inicio := ⟨2024, 1, 31⟩, recorrencia := "mensal",
    fim_tipo := "until_cancelled", meses_duracao := none, ativo := true,
    observacao := none }

/-- A monthly definition starting 2024-01-01 ending after 3 months. -/
def sampleAfter3Def : RecurringTransaction :=
  { id := "r2", descricao := "curso", tipo := "Receita", valor := 5,
    categoria := "Outros", forma_pagamento := "PIX",
    data_inicio := ⟨2024, 1, 1⟩, recorrencia := "mensal",
    fim_tipo := "after_months", meses_duracao := some 3, ativo := true,
    observacao := none }

/-- A definition with an unrecognized recurrence period. -/
def sampleUnknownRecDef : RecurringTransaction :=
  { id := "r3", descricao := "avulso", tipo := "Receita", valor := 5,
    categoria := "Outros", forma_pagamento := "PIX",
    data_inicio := ⟨2024, 2, 10⟩, recorrencia := "semanal",
    fim_tipo := "until_cancelled", meses_duracao := none, ativo := true,
    observacao := none }

theorem selectedYearOf_some_zero (cy : Nat) :
    selectedYearOf (some 0) cy = cy := by
  simp [selectedYearOf]

theorem selectedYearOf_none (cy : Nat) : selectedYearOf none cy = cy := rfl

theorem selectedYearOf_some_self (cy : Nat) :
    selectedYearOf (some cy) cy = cy := by
  simp [selectedYearOf]

theorem selectedYearOf_some_pos (y cy : Nat) (hy : 0 < y) :
    selectedYearOf (some y) cy = y := by
  show (if y = 0 then cy else y) = y
  rw [if_neg (by omega)]

/-- C10: a falsy year argument (zero or missing) makes `getBalanceData`
aggregate the current wall-clock year instead of year 0: the result equals
that of a call with the current year. -/
theorem getBalanceData_falsy_year (ts : List Transaction)
    (gts : List GoalTransaction) (fts : Option (List ForecastTransaction))
    (today : Instant) :
    getBalanceData ts gts (some 0) fts today =
        getBalanceData ts gts (some today.date.year) fts today ∧
      getBalanceData ts gts none fts today =
        getBalanceData ts gts (some today.date.year) fts today := by
  constructor
  · unfold getBalanceData
    rw [selectedYearOf_some_zero, selectedYearOf_some_self]
  · unfold getBalanceData
    rw [selectedYearOf_none, selectedYearOf_some_self]

/-- C9: both forecast generators and the aggregator are pure functions of
their explicit inputs together with the injected reference instant — two
calls on identical inputs and the same "today" give identical results. -/
theorem core_functions_deterministic
    (recs1 recs2 : List RecurringTransaction) (m1 m2 : Nat)
    (today1 today2 : Instant) (ts1 ts2 : List Transaction)
    (gts1 gts2 : List GoalTransaction) (y1 y2 : Option Nat)
    (fts1 fts2 : Option (List ForecastTransaction))
    (hrecs : recs1 = recs2) (hm : m1 = m2) (htoday : today1 = today2)
    (hts : ts1 = ts2) (hgts : gts1 = gts2) (hy : y1 = y2)
    (hfts : fts1 = fts2) :
    Part002.generateForecastTransactions recs1 m1 today1 =
        Part002.generateForecastTransactions recs2 m2 today2 ∧
      Part003.generateForecastTransactions recs1 m1 today1 =
        Part003.generateForecastTransactions recs2 m2 today2 ∧
      getBalanceData ts1 gts1 y1 fts1 today1 =
        getBalanceData ts2 gts2 y2 fts2 today2 := by
  subst hrecs hm htoday hts hgts hy hfts
  exact ⟨rfl, rfl, rfl⟩

theorem core_functions_deterministic_witness :
    Part002.generateForecastTransactions [sampleMonthEndDef] 3
          sampleMidnight2024 =
        Part002.generateForecastTransactions [sampleMonthEndDef] 3
          sampleMidnight2024 ∧
      Part003.generateForecastTransactions [sampleMonthEndDef] 3
          sampleMidnight2024 =
        Part003.generateForecastTransactions [sampleMonthEndDef] 3
          sampleMidnight2024 ∧
      getBalanceData [] [] (some 2024) none sampleMidnight2024 =
        getBalanceData [] [] (some 2024) none sampleMidnight2024 :=
  core_functions_deterministic [sampleMonthEndDef] [sampleMonthEndDef] 3 3
    sampleMidnight2024 sampleMidnight2024 [] [] [] [] (some 2024) (some 2024)
    none none rfl rfl rfl rfl rfl rfl rfl

theorem buildMonths_map_monthKey (y : Nat)
    (mmap : Nat × Nat → Option MonthData) :
    ∀ (months : List Nat) (acc : Int),
      (buildMonths y mmap months acc).map (fun b => b.monthKey) =
        months.map (fun m => (y, m)) := by
  intro months
  induction months with
  | nil => intro acc; rfl
  | cons month rest ih =>
    intro acc
    unfold buildMonths
    dsimp only
    rw [if_neg (by simp)]
    cases h : mmap (y, month) with
    | some md => simp [h, ih]
    | none => simp [h, ih]

theorem finalVerification_keeps_buckets (y : Nat)
    (mmap : Nat × Nat → Option MonthData) (acc : Int) :
    (if ((buildMonths y mmap (List.range' 1 12) acc).filter
          (fun item => item.monthKey.1 == y)).length = 12 then
        (buildMonths y mmap (List.range' 1 12) acc).filter
          (fun item => item.monthKey.1 == y)
      else buildMonths y mmap (List.range' 1 12) acc) =
      buildMonths y mmap (List.range' 1 12) acc ∧
      (buildMonths y mmap (List.range' 1 12) acc).length = 12 := by
  have hmap := buildMonths_map_monthKey y mmap (List.range' 1 12) acc
  have hall : ∀ b ∈ buildMonths y mmap (List.range' 1 12) acc,
      (b.monthKey.1 == y) = true := by
    intro b hb
    have hmem : b.monthKey ∈
        (buildMonths y mmap (List.range' 1 12) acc).map
          (fun b => b.monthKey) :=
      List.mem_map_of_mem _ hb
    rw [hmap] at hmem
    obtain ⟨m, _, he⟩ := List.mem_map.mp hmem
    rw [← he]
    simp
  have hfe : (buildMonths y mmap (List.range' 1 12) acc).filter
      (fun item => item.monthKey.1 == y) =
      buildMonths y mmap (List.range' 1 12) acc :=
    List.filter_eq_self.mpr hall
  have hlen : (buildMonths y mmap (List.range' 1 12) acc).length = 12 := by
    have := congrArg List.length hmap
    simpa using this
  rw [hfe, if_pos hlen]
  exact ⟨rfl, hlen⟩

/-- C1: for every positive requested year, `getBalanceData` returns exactly
12 buckets whose month keys are `(year, 1)` … `(year, 12)` — the component
form of `{year}-01` … `{year}-12` — in January-to-December order, for any
input including empty lists. -/
theorem getBalanceData_twelve_buckets (ts : List Transaction)
    (gts : List GoalTransaction) (fts : Option (List ForecastTransaction))
    (today : Instant) (y : Nat) (hy : 0 < y) :
    (getBalanceData ts gts (some y) fts today).length = 12 ∧
      (getBalanceData ts gts (some y) fts today).map (fun b => b.monthKey) =
        (List.range' 1 12).map (fun m => (y, m)) := by
  unfold getBalanceData
  rw [selectedYearOf_some_pos y today.date.year hy]
  obtain ⟨hif, hlen⟩ := finalVerification_keeps_buckets y
    ((filteredForecastTransactions fts y today).foldl
      (applyForecastTransaction y)
      ((gts.filter
          (fun gt => gt.data.year == y && gt.tipo == "deposito")).foldl
        (applyGoalTransaction y)
        ((ts.filter (fun t => t.data.year == y)).foldl
          (applyTransaction y) (initMonthlyMap y))))
    (initialAccumulated ts y)
  rw [hif]
  exact ⟨hlen, buildMonths_map_monthKey y _ (List.range' 1 12)
    (initialAccumulated ts y)⟩

theorem getBalanceData_twelve_buckets_witness :
    0 < 2024 ∧
      (getBalanceData [] [] (some 2024) none sampleMidnight2024).length = 12 ∧
      (getBalanceData [] [] (some 2024) none sampleMidnight2024).map
          (fun b => b.monthKey) =
        (List.range' 1 12).map (fun m => (2024, m)) :=
  ⟨by decide,
    getBalanceData_twelve_buckets [] [] none sampleMidnight2024 2024
      (by decide)⟩

/-- A forecast occurrence dated 2025-06-15. -/
def sampleForecastJun15 : ForecastTransaction :=
  { id := "f1", recurring_id := "r9", data := ⟨2025, 6, 15⟩,
    tipo := "Receita", descricao := "previsto", valor := 100,
    categoria := "Outros", forma_pagamento := "PIX", observacao := none }

theorem instLE_midnight (t : Instant) (d : SDate) :
    instLE t ⟨d, 0⟩ ↔ dateLT t.date d ∨ (d = t.date ∧ t.tod = 0) := by
  obtain ⟨td, tt⟩ := t
  simp only [instLE, instLT, Instant.mk.injEq]
  constructor
  · rintro ((h | ⟨h1, h2⟩) | ⟨h1, h2⟩)
    · exact Or.inl h
    · exact absurd h2 (Nat.not_lt_zero tt)
    · exact Or.inr ⟨h1.symm, h2⟩
  · rintro (h | ⟨h1, h2⟩)
    · exact Or.inl (Or.inl h)
    · subst h1
      subst h2
      exact Or.inr ⟨rfl, rfl⟩

/-- C6 counterexample: with the current instant one millisecond past
midnight of 2025-06-15 and the selected year equal to the current year, a
forecast occurrence dated exactly today is NOT retained by
`getBalanceData`'s forecast filter, contrary to the claim. -/
theorem forecast_dated_today_dropped :
    (⟨⟨2025, 6, 15⟩, 1⟩ : Instant).date.year = 2025 ∧
      sampleForecastJun15.data = (⟨⟨2025, 6, 15⟩, 1⟩ : Instant).date ∧
      filteredForecastTransactions (some [sampleForecastJun15]) 2025
        ⟨⟨2025, 6, 15⟩, 1⟩ = [] := by
  refine ⟨rfl, rfl, ?_⟩
  decide

/-- C6 amended: for a past selected year no forecast occurrence is
retained; for a future selected year exactly those dated in that year are
retained; for the current year an occurrence is retained exactly when its
date's local midnight is not before the current instant — occurrences dated
strictly after today are always retained, and an occurrence dated today is
retained only when the current instant is exactly midnight. -/
theorem filteredForecastTransactions_retention
    (fts : List ForecastTransaction) (y : Nat) (today : Instant) :
    (y < today.date.year →
        filteredForecastTransactions (some fts) y today = []) ∧
      (today.date.year < y →
        filteredForecastTransactions (some fts) y today =
          fts.filter (fun ft => ft.data.year == y)) ∧
      (y = today.date.year →
        ∀ ft, ft ∈ filteredForecastTransactions (some fts) y today ↔
          ft ∈ fts ∧ ft.data.year = y ∧
            (dateLT today.date (createDateFromString ft.data) ∨
              (createDateFromString ft.data = today.date ∧ today.tod = 0))) := by
  refine ⟨?_, ?_, ?_⟩
  · intro hpast
    unfold filteredForecastTransactions
    dsimp only
    rw [if_neg (by omega)]
  · intro hfut
    unfold filteredForecastTransactions
    dsimp only
    rw [if_pos (by omega)]
    apply List.filter_congr
    intro ft _
    by_cases hyy : ft.data.year = y
    · rw [if_pos hyy, if_neg (by omega)]
      simp [hyy]
    · rw [if_neg hyy]
      simp [hyy]
  · intro hcur ft
    unfold filteredForecastTransactions
    dsimp only
    rw [if_pos (by omega)]
    rw [List.mem_filter]
    constructor
    · rintro ⟨hmem, hp⟩
      by_cases hyy : ft.data.year = y
      · rw [if_pos hyy, if_pos hcur] at hp
        simp only [decide_eq_true_eq] at hp
        exact ⟨hmem, hyy, (instLE_midnight today _).mp hp⟩
      · rw [if_neg hyy] at hp
        exact absurd hp (by simp)
    · rintro ⟨hmem, hyy, hd⟩
      refine ⟨hmem, ?_⟩
      rw [if_pos hyy, if_pos hcur]
      simp only [decide_eq_true_eq]
      exact (instLE_midnight today _).mpr hd

theorem filteredForecastTransactions_retention_witness :
    (filteredForecastTransactions (some [sampleForecastJun15]) 2024
        ⟨⟨2025, 1, 1⟩, 0⟩ = []) ∧
      (filteredForecastTransactions (some [sampleForecastJun15]) 2026
          ⟨⟨2025, 1, 1⟩, 0⟩ =
        [sampleForecastJun15].filter (fun ft => ft.data.year == 2026)) ∧
      (sampleForecastJun15 ∈
          filteredForecastTransactions (some [sampleForecastJun15]) 2025
            ⟨⟨2025, 6, 15⟩, 0⟩ ↔
        sampleForecastJun15 ∈ [sampleForecastJun15] ∧
          sampleForecastJun15.data.year = 2025 ∧
            (dateLT (⟨⟨2025, 6, 15⟩, 0⟩ : Instant).date
                (createDateFromString sampleForecastJun15.data) ∨
              (createDateFromString sampleForecastJun15.data =
                  (⟨⟨2025, 6, 15⟩, 0⟩ : Instant).date ∧
                (⟨⟨2025, 6, 15⟩, 0⟩ : Instant).tod = 0))) :=
  ⟨(filteredForecastTransactions_retention [sampleForecastJun15] 2024
      ⟨⟨2025, 1, 1⟩, 0⟩).1 (by decide),
    (filteredForecastTransactions_retention [sampleForecastJun15] 2026
      ⟨⟨2025, 1, 1⟩, 0⟩).2.1 (by decide),
    (filteredForecastTransactions_retention [sampleForecastJun15] 2025
      ⟨⟨2025, 6, 15⟩, 0⟩).2.2 (by decide) sampleForecastJun15⟩

/-- Claim-level signed amount of a realized transaction: income counts
positive, expense negative. -/
def signedValor (t : Transaction) : Int :=
  if t.tipo = "Receita" then t.valor else -t.valor

/-- Claim-level contribution of a transaction list to one month of a year:
the sum of the signed amounts of the transactions dated in that month. -/
def monthNet (py mo : Nat) (l : List Transaction) : Int :=
  (l.map (fun t =>
    if t.data.year = py ∧ t.data.month = mo then signedValor t else 0)).sum

theorem innerFold_net (py mo : Nat) (l : List Transaction) :
    ∀ p : Int × Int,
      (l.foldl (prevMonthStep py mo) p).1 -
          (l.foldl (prevMonthStep py mo) p).2 =
        p.1 - p.2 + monthNet py mo l := by
  induction l with
  | nil => intro p; simp [monthNet]
  | cons t l ih =>
    intro p
    rw [List.foldl_cons, ih]
    unfold monthNet signedValor prevMonthStep
    rw [List.map_cons, List.sum_cons]
    split_ifs with hc ht
    all_goals omega

theorem foldl_add_map (f : Nat → Int) :
    ∀ (months : List Nat) (c : Int),
      months.foldl (fun a m => a + f m) c = c + (months.map f).sum := by
  intro months
  induction months with
  | nil => intro c; simp
  | cons m l ih =>
    intro c
    rw [List.foldl_cons, ih, List.map_cons, List.sum_cons]
    omega

theorem sum_map_add (f g : Nat → Int) :
    ∀ l : List Nat,
      (l.map (fun m => f m + g m)).sum = (l.map f).sum + (l.map g).sum := by
  intro l
  induction l with
  | nil => simp
  | cons m l ih =>
    rw [List.map_cons, List.sum_cons, ih, List.map_cons, List.sum_cons,
      List.map_cons, List.sum_cons]
    omega

theorem monthNet_swap (py : Nat) (months : List Nat) :
    ∀ l : List Transaction,
      (months.map (fun mo => monthNet py mo l)).sum =
        (l.map (fun t => (months.map (fun mo =>
          if t.data.year = py ∧ t.data.month = mo then signedValor t
          else 0)).sum)).sum := by
  intro l
  induction l with
  | nil => simp [monthNet]
  | cons t l ih =>
    have hcons : (fun mo => monthNet py mo (t :: l)) = fun mo =>
        (if t.data.year = py ∧ t.data.month = mo then signedValor t else 0) +
          monthNet py mo l := by
      funext mo
      unfold monthNet
      rw [List.map_cons, List.sum_cons]
    rw [hcons, sum_map_add, ih, List.map_cons, List.sum_cons]

theorem rowSum_eval (py : Nat) (t : Transaction) (hy : t.data.year = py)
    (hm1 : 1 ≤ t.data.month) (hm2 : t.data.month ≤ 12) :
    ((List.range' 1 12).map (fun mo =>
      if t.data.year = py ∧ t.data.month = mo then signedValor t
      else 0)).sum = signedValor t := by
  obtain ⟨tid, tdata, ttipo, tdesc, tval, tcat, tfp⟩ := t
  obtain ⟨ty, tm, td⟩ := tdata
  dsimp only at hy hm1 hm2 ⊢
  subst hy
  have h12 : List.range' 1 12 = [1, 2, 3, 4, 5, 6, 7, 8, 9, 10, 11, 12] := rfl
  rw [h12]
  interval_cases tm <;> simp

/-- The carry-forward computed by `getBalanceData` equals the plain sum of
the signed amounts of the previous-year realized transactions (for a
well-formed month component), and is zero for year 1 or earlier. -/
theorem initialAccumulated_spec (transactions : List Transaction) (y : Nat)
    (hval : ∀ t ∈ transactions, 1 ≤ t.data.month ∧ t.data.month ≤ 12) :
    (1 < y → initialAccumulated transactions y =
        ((transactions.filter (fun t => t.data.year == y - 1)).map
          signedValor).sum) ∧
      (y ≤ 1 → initialAccumulated transactions y = 0) := by
  constructor
  · intro hy
    unfold initialAccumulated
    rw [if_pos hy]
    dsimp only
    have hb : ∀ month : Nat,
        ((transactions.filter (fun t => t.data.year == y - 1)).foldl
            (prevMonthStep (y - 1) month) (0, 0)).1 -
          ((transactions.filter (fun t => t.data.year == y - 1)).foldl
            (prevMonthStep (y - 1) month) (0, 0)).2 =
          monthNet (y - 1) month
            (transactions.filter (fun t => t.data.year == y - 1)) := by
      intro month
      rw [innerFold_net]
      dsimp only
      omega
    simp only [hb]
    rw [foldl_add_map (fun mo => monthNet (y - 1) mo
      (transactions.filter (fun t => t.data.year == y - 1)))]
    rw [monthNet_swap]
    have hrows : ∀ t ∈ transactions.filter (fun t => t.data.year == y - 1),
        ((List.range' 1 12).map (fun mo =>
          if t.data.year = y - 1 ∧ t.data.month = mo then signedValor t
          else 0)).sum = signedValor t := by
      intro t ht
      obtain ⟨htmem, htyear⟩ := List.mem_filter.mp ht
      have hv := hval t htmem
      exact rowSum_eval (y - 1) t (by simpa using htyear) hv.1 hv.2
    rw [List.map_congr_left hrows]
    omega
  · intro hy
    unfold initialAccumulated
    rw [if_neg (by omega)]

/-- A 2023 income of 1500. -/
def sampleTx2023a : Transaction :=
  { id := "t1", data := ⟨2023, 6, 10⟩, tipo := "Receita",
    descricao := "salario", valor := 1500, categoria := "Outros",
    forma_pagamento := "PIX" }

/-- A 2023 expense of 500. -/
def sampleTx2023b : Transaction :=
  { id := "t2", data := ⟨2023, 7, 5⟩, tipo := "Despesa", descricao := "conta",
    valor := 500, categoria := "Outros", forma_pagamento := "PIX" }

/-- A 2023 goal deposit (must not enter the carry-forward). -/
def sampleGoal2023 : GoalTransaction :=
  { id := "g1", goal_id := "m1", tipo := "deposito", valor := 777,
    data := ⟨2023, 5, 2⟩ }

/-- A 2023 forecast occurrence (must not enter the carry-forward). -/
def sampleForecast2023 : ForecastTransaction :=
  { id := "f0", recurring_id := "r8", data := ⟨2023, 4, 1⟩, tipo := "Receita",
    descricao := "previsto", valor := 555, categoria := "Outros",
    forma_pagamento := "PIX", observacao := none }

/-- C5: for a selected year above 1, the opening running balance used by
`getBalanceData` — the `initialAccumulated` value its running-balance pass
is seeded with — equals the sum of the signed amounts of the previous-year
realized transactions (a function of the realized transactions alone: goal
transactions and forecast occurrences do not appear in it), and it is zero
for year 1 or earlier.  In particular, realized transactions entirely
within 2023 netting to +1000 — even alongside a 2023 goal deposit and a
2023 forecast occurrence — give `runningBalance = 1000` in all 12 buckets
of 2024. -/
theorem carry_forward_previous_year (transactions : List Transaction)
    (y : Nat)
    (hval : ∀ t ∈ transactions, 1 ≤ t.data.month ∧ t.data.month ≤ 12) :
    (1 < y → initialAccumulated transactions y =
        ((transactions.filter (fun t => t.data.year == y - 1)).map
          signedValor).sum) ∧
      (y ≤ 1 → initialAccumulated transactions y = 0) ∧
      (getBalanceData [sampleTx2023a, sampleTx2023b] [sampleGoal2023]
          (some 2024) (some [sampleForecast2023])
          ⟨⟨2024, 1, 15⟩, 9⟩).map (fun b => b.saldo_acumulado) =
        List.replicate 12 1000 := by
  obtain ⟨h1, h2⟩ := initialAccumulated_spec transactions y hval
  exact ⟨h1, h2, by decide⟩

theorem carry_forward_previous_year_witness :
    (∀ t ∈ [sampleTx2023a, sampleTx2023b],
        1 ≤ t.data.month ∧ t.data.month ≤ 12) ∧
      (1 < 2024 → initialAccumulated [sampleTx2023a, sampleTx2023b] 2024 =
        (([sampleTx2023a, sampleTx2023b].filter
          (fun t => t.data.year == 2024 - 1)).map signedValor).sum) ∧
      initialAccumulated [sampleTx2023a, sampleTx2023b] 2024 = 1000 :=
  ⟨by decide,
    (carry_forward_previous_year [sampleTx2023a, sampleTx2023b] 2024
      (by decide)).1,
    by decide⟩

theorem mem_generate3 (recs : List RecurringTransaction) (m : Nat)
    (today : Instant) (f : ForecastTransaction) :
    f ∈ Part003.generateForecastTransactions recs m today ↔
      ∃ rt ∈ recs, rt.ativo = true ∧
        f ∈ Part003.expandDef today (setMonthAdd today m) rt := by
  unfold Part003.generateForecastTransactions
  dsimp only
  rw [mem_sortByData, List.mem_flatMap]
  constructor
  · rintro ⟨rt, hrt, hf⟩
    obtain ⟨hin, hact⟩ := List.mem_filter.mp hrt
    exact ⟨rt, hin, hact, hf⟩
  · rintro ⟨rt, hin, hact, hf⟩
    exact ⟨rt, List.mem_filter.mpr ⟨hin, hact⟩, hf⟩

theorem mem_generate2 (recs : List RecurringTransaction) (m : Nat)
    (today : Instant) (f : ForecastTransaction) :
    f ∈ Part002.generateForecastTransactions recs m today ↔
      ∃ r ∈ recs, f ∈ Part002.expandDef today (setMonthAdd today m) r := by
  unfold Part002.generateForecastTransactions
  dsimp only
  rw [mem_sortByData, List.mem_flatMap]

/-- C7 counterexample: a definition with the unrecognized recurrence period
`semanal` does emit an occurrence (its initial date) in both variants
before expansion stops, contrary to the claim that no occurrences are
emitted for it. -/
theorem unknown_recurrence_emits_one :
    (Part002.generateForecastTransactions [sampleUnknownRecDef] 12
        sampleMidnight2024).map (fun f => f.data) = [⟨2024, 2, 10⟩] ∧
      (Part003.generateForecastTransactions [sampleUnknownRecDef] 12
        sampleMidnight2024).map (fun f => f.data) = [⟨2024, 2, 10⟩] := by
  decide

/-- C7 amended: a definition with an unrecognized `recurrencePeriod` emits
at most one occurrence — the initial date, when it falls inside the
emission window — and then stops silently, with no error; every definition
contributes independently, so the other definitions are still expanded. -/
theorem unknown_recurrence_single_occurrence :
    (∀ (rt : RecurringTransaction) (today endDate : Instant)
        (startDate : SDate) (fuel : Nat) (cur : SDate) (count : Nat),
        Part003.recurrenceMonths rt.recorrencia = none →
        (Part003.expandLoop rt today endDate startDate fuel cur
          count).length ≤ 1) ∧
      (∀ (r : RecurringTransaction) (maxDate : Instant) (fuel : Nat)
          (cur : Instant),
        Part002.stepMonths r.recorrencia = none →
        (Part002.expandLoop r maxDate fuel cur).length ≤ 1) ∧
      (∀ (recs : List RecurringTransaction) (m : Nat) (today : Instant)
          (f : ForecastTransaction),
        (f ∈ Part003.generateForecastTransactions recs m today ↔
          ∃ rt ∈ recs, rt.ativo = true ∧
            f ∈ Part003.expandDef today (setMonthAdd today m) rt) ∧
          (f ∈ Part002.generateForecastTransactions recs m today ↔
            ∃ r ∈ recs,
              f ∈ Part002.expandDef today (setMonthAdd today m) r)) := by
  refine ⟨?_, ?_, ?_⟩
  · intro rt today endDate startDate fuel cur count h
    cases fuel with
    | zero => simp [Part003.expandLoop]
    | succ fuel =>
      unfold Part003.expandLoop
      dsimp only
      rw [h]
      split_ifs <;> simp
  · intro r maxDate fuel cur h
    cases fuel with
    | zero => simp [Part002.expandLoop]
    | succ fuel =>
      unfold Part002.expandLoop
      dsimp only
      rw [h]
      split_ifs <;> simp
  · intro recs m today f
    exact ⟨mem_generate3 recs m today f, mem_generate2 recs m today f⟩

theorem unknown_recurrence_single_occurrence_witness :
    (Part003.expandLoop sampleUnknownRecDef sampleMidnight2024
        (setMonthAdd sampleMidnight2024 12) ⟨2024, 2, 10⟩ 5 ⟨2024, 2, 10⟩
        0).length ≤ 1 ∧
      (Part002.expandLoop sampleUnknownRecDef
        (setMonthAdd sampleMidnight2024 12) 1000
        ⟨⟨2024, 2, 10⟩, 0⟩).length ≤ 1 :=
  ⟨unknown_recurrence_single_occurrence.1 sampleUnknownRecDef
      sampleMidnight2024 (setMonthAdd sampleMidnight2024 12) ⟨2024, 2, 10⟩ 5
      ⟨2024, 2, 10⟩ 0 rfl,
    unknown_recurrence_single_occurrence.2.1 sampleUnknownRecDef
      (setMonthAdd sampleMidnight2024 12) 1000 ⟨⟨2024, 2, 10⟩, 0⟩ rfl⟩

/-- C2 counterexample: for a monthly definition starting 2024-01-31
(reference instant 2024-01-01 00:00, horizon 3 months), the `part_003`
variant emits 2024-01-31, 2024-02-29, 2024-03-29 — the clamped day carries
forward, so 2024-03-31 is never emitted — and the `part_002` variant rolls
Jan 31 + 1 month over to 2024-03-02, which the claim says never happens. -/
theorem month_end_emission_drifts_or_rolls :
    (Part003.generateForecastTransactions [sampleMonthEndDef] 3
        sampleMidnight2024).map (fun f => f.data) =
        [⟨2024, 1, 31⟩, ⟨2024, 2, 29⟩, ⟨2024, 3, 29⟩] ∧
      (Part002.generateForecastTransactions [sampleMonthEndDef] 3
        sampleMidnight2024).map (fun f => f.data) =
        [⟨2024, 1, 31⟩, ⟨2024, 3, 2⟩] := by
  decide

/-- C2 amended: in the `part_003` variant a single month-step lands exactly
on the target month (no rollover) and preserves the stepped-from date's day
when the target month has that day, clamping to the target month's last day
otherwise; since each step starts from the previously clamped date, a
monthly definition starting 2024-01-31 emits 2024-01-31, 2024-02-29,
2024-03-29 (not 2024-03-31).  The `part_002` variant steps with plain
`setMonth`, so the same definition emits 2024-01-31 and then the rolled-over
2024-03-02. -/
theorem month_step_clamping :
    (∀ (d : SDate) (k : Nat),
        monthsIdx (Part003.addMonths d k) = monthsIdx d + k ∧
          (d.day ≤ daysInMonth (Part003.addMonths d k).year
              (Part003.addMonths d k).month →
            (Part003.addMonths d k).day = d.day) ∧
          (daysInMonth (Part003.addMonths d k).year
              (Part003.addMonths d k).month < d.day →
            (Part003.addMonths d k).day =
              daysInMonth (Part003.addMonths d k).year
                (Part003.addMonths d k).month)) ∧
      (Part003.generateForecastTransactions [sampleMonthEndDef] 3
          sampleMidnight2024).map (fun f => f.data) =
          [⟨2024, 1, 31⟩, ⟨2024, 2, 29⟩, ⟨2024, 3, 29⟩] ∧
        (Part002.generateForecastTransactions [sampleMonthEndDef] 3
          sampleMidnight2024).map (fun f => f.data) =
          [⟨2024, 1, 31⟩, ⟨2024, 3, 2⟩] := by
  refine ⟨?_, by decide, by decide⟩
  intro d k
  unfold Part003.addMonths monthsIdx
  dsimp only
  refine ⟨by omega, ?_, ?_⟩
  · intro h
    omega
  · intro h
    omega

theorem month_step_clamping_witness :
    (Part003.addMonths ⟨2024, 1, 15⟩ 1).day = (⟨2024, 1, 15⟩ : SDate).day ∧
      (Part003.addMonths ⟨2024, 1, 31⟩ 1).day =
        daysInMonth (Part003.addMonths ⟨2024, 1, 31⟩ 1).year
          (Part003.addMonths ⟨2024, 1, 31⟩ 1).month :=
  ⟨((month_step_clamping.1 ⟨2024, 1, 15⟩ 1).2.1 (by decide)),
    ((month_step_clamping.1 ⟨2024, 1, 31⟩ 1).2.2 (by decide))⟩

theorem after3_step (k : Nat) (hk : k ≤ 2) :
    Part003.addMonths ⟨2024, 1 + k, 1⟩ 1 = ⟨2024, 1 + (k + 1), 1⟩ := by
  unfold Part003.addMonths
  dsimp only
  have hd := daysInMonth_ge (2024 + (1 + k - 1 + 1) / 12) ((1 + k - 1 + 1) % 12 + 1)
  simp only [SDate.mk.injEq]
  refine ⟨by omega, by omega, by omega⟩

theorem after3_monthsSince (k : Nat) :
    Part003.monthsSince ⟨2024, 1, 1⟩ ⟨2024, 1 + k, 1⟩ = (k : Int) := by
  unfold Part003.monthsSince
  dsimp only
  push_cast
  omega

theorem after3_loop_bounded (today endDate : Instant) :
    ∀ (fuel k count : Nat), k ≤ 3 →
      ∀ f ∈ Part003.expandLoop sampleAfter3Def today endDate ⟨2024, 1, 1⟩
        fuel ⟨2024, 1 + k, 1⟩ count,
        f.data ∈ [(⟨2024, 1, 1⟩ : SDate), ⟨2024, 2, 1⟩, ⟨2024, 3, 1⟩] := by
  intro fuel
  induction fuel with
  | zero =>
    intro k count hk f hf
    simp [Part003.expandLoop] at hf
  | succ fuel ih =>
    intro k count hk f hf
    unfold Part003.expandLoop at hf
    dsimp only at hf
    by_cases hg : instLE ⟨⟨2024, 1 + k, 1⟩, 0⟩ endDate
    case neg =>
      rw [if_neg hg] at hf
      simp at hf
    rw [if_pos hg] at hf
    by_cases h3 : k = 3
    · subst h3
      rw [if_pos] at hf
      · simp at hf
      · refine ⟨rfl, rfl, ?_⟩
        rw [after3_monthsSince]
        decide
    · rw [if_neg (fun hc => by
        have hle := hc.2.2
        rw [after3_monthsSince] at hle
        have h5 : ((sampleAfter3Def.meses_duracao.getD 0 : Nat) : Int) = 3 :=
          rfl
        rw [h5] at hle
        omega)] at hf
      rw [show Part003.recurrenceMonths sampleAfter3Def.recorrencia =
        some 1 from rfl] at hf
      dsimp only at hf
      rcases List.mem_append.mp hf with hemit | hrest
      · by_cases he : instLE today ⟨⟨2024, 1 + k, 1⟩, 0⟩
        · rw [if_pos he] at hemit
          simp only [List.mem_singleton] at hemit
          subst hemit
          dsimp only
          have hk2 : k ≤ 2 := by omega
          interval_cases k <;> decide
        · rw [if_neg he] at hemit
          simp at hemit
      · rw [after3_step k (by omega)] at hrest
        exact ih (k + 1) (count + 1) (by omega) f hrest

/-- C3 counterexample: with `endPolicy = AfterMonths(3)`, monthly
recurrence, start 2024-01-01 and today 2023-12-15, the `part_002` variant
emits an occurrence dated 2024-04-01: its cutoff comparison
`currentDate <= endDateLimit` includes the boundary date, so a fourth,
April occurrence is produced, contrary to the claim. -/
theorem after_months_boundary_emitted :
    (⟨2024, 4, 1⟩ : SDate) ∈
      (Part002.generateForecastTransactions [sampleAfter3Def] 12
        ⟨⟨2023, 12, 15⟩, 0⟩).map (fun f => f.data) := by
  decide

/-- C3 amended: the `part_003` variant emits only occurrences dated
2024-01-01, 2024-02-01 or 2024-03-01 for the AfterMonths(3) definition —
none in April or later — for every `monthsAhead` and reference instant; and
concretely (today 2023-12-15, horizon 12 months) it emits exactly those
three, while the `part_002` variant emits the 2024-04-01 boundary
occurrence as well, its AfterMonths cutoff being inclusive. -/
theorem after_months_cutoff :
    (∀ (m : Nat) (today : Instant) (f : ForecastTransaction),
        f ∈ Part003.generateForecastTransactions [sampleAfter3Def] m today →
        f.data ∈ [(⟨2024, 1, 1⟩ : SDate), ⟨2024, 2, 1⟩, ⟨2024, 3, 1⟩]) ∧
      (Part003.generateForecastTransactions [sampleAfter3Def] 12
          ⟨⟨2023, 12, 15⟩, 0⟩).map (fun f => f.data) =
          [⟨2024, 1, 1⟩, ⟨2024, 2, 1⟩, ⟨2024, 3, 1⟩] ∧
        (Part002.generateForecastTransactions [sampleAfter3Def] 12
          ⟨⟨2023, 12, 15⟩, 0⟩).map (fun f => f.data) =
          [⟨2024, 1, 1⟩, ⟨2024, 2, 1⟩, ⟨2024, 3, 1⟩, ⟨2024, 4, 1⟩] := by
  refine ⟨?_, by decide, by decide⟩
  intro m today f hf
  rw [mem_generate3] at hf
  obtain ⟨rt, hrt, _, hf⟩ := hf
  rw [List.mem_singleton] at hrt
  subst hrt
  exact after3_loop_bounded today (setMonthAdd today m) _ 0 0 (by omega) f hf

theorem after_months_cutoff_witness :
    ∀ f ∈ Part003.generateForecastTransactions [sampleAfter3Def] 24
        ⟨⟨2023, 11, 2⟩, 777⟩,
      f.data ∈ [(⟨2024, 1, 1⟩ : SDate), ⟨2024, 2, 1⟩, ⟨2024, 3, 1⟩] :=
  fun f hf => after_months_cutoff.1 24 ⟨⟨2023, 11, 2⟩, 777⟩ f hf

theorem dateLE_trans (a b c : SDate) (h1 : dateLE a b) (h2 : dateLE b c) :
    dateLE a c := by
  obtain ⟨y1, m1, d1⟩ := a
  obtain ⟨y2, m2, d2⟩ := b
  obtain ⟨y3, m3, d3⟩ := c
  simp only [dateLE, dateLT, SDate.mk.injEq] at *
  omega

theorem stepMonths_pos (s : String) (k : Nat)
    (h : Part002.stepMonths s = some k) : 1 ≤ k := by
  unfold Part002.stepMonths at h
  split_ifs at h
  all_goals (cases h <;> omega)

theorem recurrenceMonths_pos (s : String) (k : Nat)
    (h : Part003.recurrenceMonths s = some k) : 1 ≤ k := by
  unfold Part003.recurrenceMonths at h
  split_ifs at h
  all_goals (cases h <;> omega)

theorem dateLT_setMonthAdd (a : Instant) (k : Nat) (hk : 1 ≤ k)
    (ha : a.date.Normalized) : dateLT a.date (setMonthAdd a k).date := by
  apply dateLT_of_key_lt _ _ ha (setMonthAdd_normalized a k ha)
  exact setMonthAdd_key_gt a k hk ha

theorem expandLoop2_bounds (r : RecurringTransaction)
    (today maxDate : Instant) :
    ∀ (fuel : Nat) (cur : Instant), cur.date.Normalized → instLE today cur →
      ∀ f ∈ Part002.expandLoop r maxDate fuel cur,
        dateLE today.date f.data ∧ dateLE f.data maxDate.date ∧
          f.recurring_id = r.id := by
  intro fuel
  induction fuel with
  | zero =>
    intro cur _ _ f hf
    simp [Part002.expandLoop] at hf
  | succ fuel ih =>
    intro cur hcur hle f hf
    unfold Part002.expandLoop at hf
    dsimp only at hf
    by_cases hg : instLE cur maxDate
    case neg =>
      rw [if_neg hg] at hf
      simp at hf
    rw [if_pos hg] at hf
    cases hstep : Part002.stepMonths r.recorrencia with
    | none =>
      rw [hstep] at hf
      simp only [List.mem_singleton] at hf
      subst hf
      exact ⟨dateLE_of_instLE _ _ hle, dateLE_of_instLE _ _ hg, rfl⟩
    | some k =>
      rw [hstep] at hf
      rcases List.mem_cons.mp hf with hf | hf
      · subst hf
        exact ⟨dateLE_of_instLE _ _ hle, dateLE_of_instLE _ _ hg, rfl⟩
      · have hk := stepMonths_pos _ _ hstep
        have hlt := dateLT_setMonthAdd cur k hk hcur
        exact ih (Part002.addMonths cur k) (setMonthAdd_normalized cur k hcur)
          (instLE_trans today cur _ hle (Or.inl (Or.inl hlt))) f hf

theorem expandDef2_bounds (today endDate : Instant) (r : RecurringTransaction)
    (htoday : today.date.Normalized) (hday : 1 ≤ r.data_inicio.day) :
    ∀ f ∈ Part002.expandDef today endDate r,
      dateLE today.date f.data ∧ dateLE f.data endDate.date ∧
        r.ativo = true ∧ f.recurring_id = r.id := by
  intro f hf
  unfold Part002.expandDef at hf
  dsimp only at hf
  by_cases hact : r.ativo = false
  · rw [if_pos hact] at hf
    simp at hf
  · rw [if_neg hact] at hf
    have hative : r.ativo = true := by
      revert hact
      cases r.ativo <;> simp
    by_cases hpast : instLT endDate
        ⟨mkJSDate r.data_inicio.year (r.data_inicio.month - 1)
          r.data_inicio.day, 0⟩
    · rw [if_pos hpast] at hf
      simp at hf
    rw [if_neg hpast] at hf
    have hstartnorm : (mkJSDate r.data_inicio.year
        (r.data_inicio.month - 1) r.data_inicio.day).Normalized :=
      mkJSDate_normalized _ _ _ hday
    by_cases hlim : r.fim_tipo = "after_months" ∧
        jsTruthy r.meses_duracao = true
    · rw [if_pos hlim] at hf
      dsimp only at hf
      by_cases hend : instLT (Part002.addMonths
          ⟨mkJSDate r.data_inicio.year (r.data_inicio.month - 1)
            r.data_inicio.day, 0⟩ (r.meses_duracao.getD 0)) today
      · rw [if_pos (by simpa using hend)] at hf
        simp at hf
      · rw [if_neg (by simpa using hend)] at hf
        set startD : Instant := ⟨mkJSDate r.data_inicio.year
          (r.data_inicio.month - 1) r.data_inicio.day, 0⟩ with hsd
        set limD : Instant := Part002.addMonths startD
          (r.meses_duracao.getD 0) with hld
        set cur0 : Instant := if instLT today startD then startD else today
          with hc0
        have hcurnorm : cur0.date.Normalized := by
          rw [hc0]
          split
          · exact hstartnorm
          · exact htoday
        have hcurle : instLE today cur0 := by
          rw [hc0]
          split
          · next hx => exact Or.inl hx
          · exact Or.inr rfl
        by_cases hcmp : instLT limD endDate
        · rw [if_pos hcmp] at hf
          obtain ⟨h1, h2, h3⟩ :=
            expandLoop2_bounds r today limD 1000 cur0 hcurnorm hcurle f hf
          exact ⟨h1, dateLE_trans _ _ _ h2
            (dateLE_of_instLE _ _ (Or.inl hcmp)), hative, h3⟩
        · rw [if_neg hcmp] at hf
          obtain ⟨h1, h2, h3⟩ :=
            expandLoop2_bounds r today endDate 1000 cur0 hcurnorm hcurle f hf
          exact ⟨h1, h2, hative, h3⟩
    · rw [if_neg hlim] at hf
      dsimp only at hf
      set startD : Instant := ⟨mkJSDate r.data_inicio.year
        (r.data_inicio.month - 1) r.data_inicio.day, 0⟩ with hsd
      set cur0 : Instant := if instLT today startD then startD else today
        with hc0
      have hcurnorm : cur0.date.Normalized := by
        rw [hc0]
        split
        · exact hstartnorm
        · exact htoday
      have hcurle : instLE today cur0 := by
        rw [hc0]
        split
        · next hx => exact Or.inl hx
        · exact Or.inr rfl
      obtain ⟨h1, h2, h3⟩ :=
        expandLoop2_bounds r today endDate 1000 cur0 hcurnorm hcurle f hf
      exact ⟨h1, h2, hative, h3⟩

theorem expandLoop3_bounds (rt : RecurringTransaction)
    (today endDate : Instant) (startDate : SDate) :
    ∀ (fuel : Nat) (cur : SDate) (count : Nat),
      ∀ f ∈ Part003.expandLoop rt today endDate startDate fuel cur count,
        dateLE today.date f.data ∧ dateLE f.data endDate.date ∧
          f.recurring_id = rt.id := by
  intro fuel
  induction fuel with
  | zero =>
    intro cur count f hf
    simp [Part003.expandLoop] at hf
  | succ fuel ih =>
    intro cur count f hf
    unfold Part003.expandLoop at hf
    dsimp only at hf
    by_cases hg : instLE ⟨cur, 0⟩ endDate
    case neg =>
      rw [if_neg hg] at hf
      simp at hf
    rw [if_pos hg] at hf
    by_cases hbreak : rt.fim_tipo = "after_months" ∧
        jsTruthy rt.meses_duracao = true ∧
        (rt.meses_duracao.getD 0 : Int) ≤ Part003.monthsSince startDate cur
    · rw [if_pos hbreak] at hf
      simp at hf
    · rw [if_neg hbreak] at hf
      cases hstep : Part003.recurrenceMonths rt.recorrencia with
      | none =>
        rw [hstep] at hf
        dsimp only at hf
        by_cases he : instLE today ⟨cur, 0⟩
        · rw [if_pos he] at hf
          simp only [List.mem_singleton] at hf
          subst hf
          exact ⟨dateLE_of_instLE _ _ he, dateLE_of_instLE _ _ hg, rfl⟩
        · rw [if_neg he] at hf
          simp at hf
      | some k =>
        rw [hstep] at hf
        dsimp only at hf
        rcases List.mem_append.mp hf with hemit | hrest
        · by_cases he : instLE today ⟨cur, 0⟩
          · rw [if_pos he] at hemit
            simp only [List.mem_singleton] at hemit
            subst hemit
            exact ⟨dateLE_of_instLE _ _ he, dateLE_of_instLE _ _ hg, rfl⟩
          · rw [if_neg he] at hemit
            simp at hemit
        · exact ih (Part003.addMonths cur k) (count + 1) f hrest

/-- C4: every occurrence emitted by either variant of
`generateForecastTransactions` is dated between `today` and the horizon
`today + monthsAhead` months (the value the code computes with `setMonth`),
both inclusive, and every occurrence points back to an active definition of
the input list — no occurrence is ever emitted for an inactive one. -/
theorem forecast_bounding (recs : List RecurringTransaction) (m : Nat)
    (today : Instant) (f : ForecastTransaction)
    (htoday : today.date.Normalized)
    (hdays : ∀ r ∈ recs, 1 ≤ r.data_inicio.day) :
    (f ∈ Part002.generateForecastTransactions recs m today →
        dateLE today.date f.data ∧
          dateLE f.data (setMonthAdd today m).date ∧
          ∃ r ∈ recs, r.ativo = true ∧ f.recurring_id = r.id) ∧
      (f ∈ Part003.generateForecastTransactions recs m today →
        dateLE today.date f.data ∧
          dateLE f.data (setMonthAdd today m).date ∧
          ∃ r ∈ recs, r.ativo = true ∧ f.recurring_id = r.id) := by
  constructor
  · intro hf
    rw [mem_generate2] at hf
    obtain ⟨r, hr, hf⟩ := hf
    obtain ⟨h1, h2, h3, h4⟩ := expandDef2_bounds today (setMonthAdd today m)
      r htoday (hdays r hr) f hf
    exact ⟨h1, h2, r, hr, h3, h4⟩
  · intro hf
    rw [mem_generate3] at hf
    obtain ⟨rt, hrt, hact, hf⟩ := hf
    obtain ⟨h1, h2, h3⟩ := expandLoop3_bounds rt today (setMonthAdd today m)
      _ _ _ _ f hf
    exact ⟨h1, h2, rt, hrt, hact, h3⟩

/-- The first occurrence `part_002` emits for `sampleAfter3Def` from
2023-12-15. -/
def sampleEmittedJan1 : ForecastTransaction :=
  { id := "r2-2024-01-01", recurring_id := "r2", data := ⟨2024, 1, 1⟩,
    tipo := "Receita", descricao := "curso", valor := 5,
    categoria := "Outros", forma_pagamento := "PIX", observacao := none }

theorem forecast_bounding_witness :
    dateLE (⟨⟨2023, 12, 15⟩, 0⟩ : Instant).date sampleEmittedJan1.data ∧
      dateLE sampleEmittedJan1.data
        (setMonthAdd ⟨⟨2023, 12, 15⟩, 0⟩ 12).date ∧
      ∃ r ∈ [sampleAfter3Def], r.ativo = true ∧
        sampleEmittedJan1.recurring_id = r.id :=
  (forecast_bounding [sampleAfter3Def] 12 ⟨⟨2023, 12, 15⟩, 0⟩
    sampleEmittedJan1 (by decide) (by decide)).1 (by decide)

theorem addMonths3_normalized (d : SDate) (k : Nat) (hd : 1 ≤ d.day) :
    (Part003.addMonths d k).Normalized := by
  unfold Part003.addMonths SDate.Normalized
  dsimp only
  have h28 := daysInMonth_ge (d.year + (d.month - 1 + k) / 12)
    ((d.month - 1 + k) % 12 + 1)
  refine ⟨by omega, by omega, by omega, by omega⟩

theorem addMonths3_monthsIdx (d : SDate) (k : Nat) :
    monthsIdx (Part003.addMonths d k) = monthsIdx d + k := by
  unfold Part003.addMonths monthsIdx
  dsimp only
  omega

theorem expandLoop2_length (r : RecurringTransaction) (maxDate : Instant) :
    ∀ (fuel : Nat) (cur : Instant),
      (Part002.expandLoop r maxDate fuel cur).length ≤ fuel := by
  intro fuel
  induction fuel with
  | zero => intro cur; simp [Part002.expandLoop]
  | succ fuel ih =>
    intro cur
    unfold Part002.expandLoop
    dsimp only
    by_cases hg : instLE cur maxDate
    · rw [if_pos hg]
      cases hstep : Part002.stepMonths r.recorrencia with
      | none => simp
      | some k =>
        have := ih (Part002.addMonths cur k)
        simp only [List.length_cons]
        omega
    · rw [if_neg hg]
      simp

theorem expandDef2_length (today endDate : Instant)
    (r : RecurringTransaction) :
    (Part002.expandDef today endDate r).length ≤ 1000 := by
  unfold Part002.expandDef
  dsimp only
  by_cases hact : r.ativo = false
  · rw [if_pos hact]
    simp
  · rw [if_neg hact]
    by_cases hpast : instLT endDate
        ⟨mkJSDate r.data_inicio.year (r.data_inicio.month - 1)
          r.data_inicio.day, 0⟩
    · rw [if_pos hpast]
      simp
    · rw [if_neg hpast]
      by_cases hlim : r.fim_tipo = "after_months" ∧
          jsTruthy r.meses_duracao = true
      · rw [if_pos hlim]
        dsimp only
        by_cases hend : instLT (Part002.addMonths
            ⟨mkJSDate r.data_inicio.year (r.data_inicio.month - 1)
              r.data_inicio.day, 0⟩ (r.meses_duracao.getD 0)) today
        · rw [if_pos (by simpa using hend)]
          simp
        · rw [if_neg (by simpa using hend)]
          by_cases hcmp : instLT (Part002.addMonths
              ⟨mkJSDate r.data_inicio.year (r.data_inicio.month - 1)
                r.data_inicio.day, 0⟩ (r.meses_duracao.getD 0)) endDate
          · rw [if_pos hcmp]
            apply expandLoop2_length
          · rw [if_neg hcmp]
            apply expandLoop2_length
      · rw [if_neg hlim]
        dsimp only
        apply expandLoop2_length

theorem generate2_single_length (r : RecurringTransaction) (m : Nat)
    (today : Instant) :
    (Part002.generateForecastTransactions [r] m today).length ≤ 1000 := by
  unfold Part002.generateForecastTransactions
  dsimp only
  rw [length_sortByData]
  simp only [List.flatMap_cons, List.flatMap_nil, List.append_nil]
  exact expandDef2_length today (setMonthAdd today m) r

theorem expandLoop3_stable (rt : RecurringTransaction)
    (today endDate : Instant) (startDate : SDate)
    (hend : endDate.date.Normalized) :
    ∀ (fuel : Nat) (cur : SDate) (count extra : Nat), cur.Normalized →
      monthsIdx endDate.date + 1 ≤ monthsIdx cur + fuel →
      Part003.expandLoop rt today endDate startDate (fuel + extra) cur count =
        Part003.expandLoop rt today endDate startDate fuel cur count := by
  intro fuel
  induction fuel with
  | zero =>
    intro cur count extra hcur hbound
    have hguard : ¬ instLE ⟨cur, 0⟩ endDate := by
      intro hg
      have hdle := dateLE_of_instLE _ _ hg
      have hk := key_le_of_dateLE cur endDate.date hcur hend hdle
      have he5 := daysInMonth_le endDate.date.year endDate.date.month
      obtain ⟨_, _, hc3, _⟩ := hcur
      obtain ⟨_, _, he3, he4⟩ := hend
      unfold SDate.key at hk
      omega
    cases extra with
    | zero => rfl
    | succ e =>
      have h01 : 0 + (e + 1) = e + 1 := by omega
      rw [h01]
      unfold Part003.expandLoop
      dsimp only
      rw [if_neg hguard]
  | succ fuel ih =>
    intro cur count extra hcur hbound
    have hstep1 : (fuel + 1) + extra = (fuel + extra) + 1 := by omega
    rw [hstep1]
    by_cases hg : instLE ⟨cur, 0⟩ endDate
    · unfold Part003.expandLoop
      dsimp only
      rw [if_pos hg, if_pos hg]
      by_cases hbreak : rt.fim_tipo = "after_months" ∧
          jsTruthy rt.meses_duracao = true ∧
          (rt.meses_duracao.getD 0 : Int) ≤ Part003.monthsSince startDate cur
      · rw [if_pos hbreak, if_pos hbreak]
      · rw [if_neg hbreak, if_neg hbreak]
        cases hstep : Part003.recurrenceMonths rt.recorrencia with
        | none => rfl
        | some k =>
          dsimp only
          congr 1
          exact ih (Part003.addMonths cur k) (count + 1) extra
            (addMonths3_normalized cur k hcur.2.2.1)
            (by
              rw [addMonths3_monthsIdx]
              have := recurrenceMonths_pos _ _ hstep
              omega)
    · unfold Part003.expandLoop
      dsimp only
      rw [if_neg hg, if_neg hg]

theorem monthEnd_loop_length_ge (today endDate : Instant)
    (hend : endDate.date.Normalized) :
    ∀ (n fuel : Nat) (cur : SDate) (count : Nat), n ≤ fuel →
      cur.Normalized → instLE today ⟨cur, 0⟩ →
      monthsIdx cur + n ≤ monthsIdx endDate.date →
      n ≤ (Part003.expandLoop sampleMonthEndDef today endDate ⟨2024, 1, 31⟩
        fuel cur count).length := by
  intro n
  induction n with
  | zero => intro fuel cur count _ _ _ _; omega
  | succ n ih =>
    intro fuel cur count hnf hcur htoday hbound
    cases fuel with
    | zero => omega
    | succ fuel =>
      unfold Part003.expandLoop
      dsimp only
      have hguard : instLE ⟨cur, 0⟩ endDate := by
        refine Or.inl (Or.inl ?_)
        apply dateLT_of_key_lt cur endDate.date hcur hend
        obtain ⟨_, _, hc3, hc4⟩ := hcur
        have hc5 := daysInMonth_le cur.year cur.month
        obtain ⟨_, _, he3, _⟩ := hend
        unfold SDate.key
        omega
      rw [if_pos hguard]
      rw [if_neg (fun hc => absurd hc.1 (by decide))]
      rw [show Part003.recurrenceMonths sampleMonthEndDef.recorrencia =
        some 1 from rfl]
      dsimp only
      rw [if_pos htoday]
      have hnorm2 := addMonths3_normalized cur 1 hcur.2.2.1
      have hlt : dateLT cur (Part003.addMonths cur 1) := by
        apply dateLT_of_key_lt cur _ hcur hnorm2
        have hmi := addMonths3_monthsIdx cur 1
        have hd1 := hnorm2.2.2.1
        obtain ⟨_, _, hc3, hc4⟩ := hcur
        have hc5 := daysInMonth_le cur.year cur.month
        unfold SDate.key
        omega
      have hrest := ih fuel (Part003.addMonths cur 1) (count + 1) (by omega)
        hnorm2
        (instLE_trans today ⟨cur, 0⟩ _ htoday (Or.inl (Or.inl hlt)))
        (by
          rw [addMonths3_monthsIdx]
          omega)
      simp only [List.length_append, List.length_cons, List.length_nil]
      omega

/-- C8 counterexample: the `part_003` variant has no 1000-occurrence cap —
with a 1050-month horizon, the single monthly definition produces more than
1000 occurrences. -/
theorem part003_no_thousand_cap :
    1000 < (Part003.generateForecastTransactions [sampleMonthEndDef] 1050
      sampleMidnight2024).length := by
  unfold Part003.generateForecastTransactions
  dsimp only
  rw [length_sortByData]
  rw [show ([sampleMonthEndDef].filter (fun rt => rt.ativo)) =
    [sampleMonthEndDef] from by decide]
  simp only [List.flatMap_cons, List.flatMap_nil, List.append_nil]
  unfold Part003.expandDef
  dsimp only
  rw [show mkJSDate sampleMonthEndDef.data_inicio.year
      (sampleMonthEndDef.data_inicio.month - 1)
      sampleMonthEndDef.data_inicio.day = ⟨2024, 1, 31⟩ from by decide]
  have h := monthEnd_loop_length_ge sampleMidnight2024
    (setMonthAdd sampleMidnight2024 1050) (by decide) 1050
    (Part003.defFuel (setMonthAdd sampleMidnight2024 1050) ⟨2024, 1, 31⟩)
    ⟨2024, 1, 31⟩ 0 (by decide) (by decide) (by decide) (by decide)
  omega

/-- C8 amended: the `part_002` variant expands each definition through a
loop capped at 1000 occurrences (the remaining cap budget bounds the loop
structurally), so a single definition yields at most 1000 occurrences; the
`part_003` variant's loop also terminates — its result is unchanged by any
extra fuel beyond the month-count of the horizon, since every recognized
step advances at least one month and an unrecognized one stops — but it
has no occurrence cap. -/
theorem forecast_expansion_cap :
    (∀ (r : RecurringTransaction) (maxDate : Instant) (fuel : Nat)
        (cur : Instant),
        (Part002.expandLoop r maxDate fuel cur).length ≤ fuel) ∧
      (∀ (today endDate : Instant) (r : RecurringTransaction),
        (Part002.expandDef today endDate r).length ≤ 1000) ∧
      (∀ (r : RecurringTransaction) (m : Nat) (today : Instant),
        (Part002.generateForecastTransactions [r] m today).length ≤ 1000) ∧
      (∀ (rt : RecurringTransaction) (today endDate : Instant) (extra : Nat),
        endDate.date.Normalized → 1 ≤ rt.data_inicio.day →
        Part003.expandLoop rt today endDate
            (mkJSDate rt.data_inicio.year (rt.data_inicio.month - 1)
              rt.data_inicio.day)
            (Part003.defFuel endDate
              (mkJSDate rt.data_inicio.year (rt.data_inicio.month - 1)
                rt.data_inicio.day) + extra)
            (mkJSDate rt.data_inicio.year (rt.data_inicio.month - 1)
              rt.data_inicio.day) 0 =
          Part003.expandDef today endDate rt) := by
  refine ⟨fun r maxDate fuel cur => expandLoop2_length r maxDate fuel cur,
    fun today endDate r => expandDef2_length today endDate r,
    fun r m today => generate2_single_length r m today, ?_⟩
  intro rt today endDate extra hend hday
  unfold Part003.expandDef
  dsimp only
  apply expandLoop3_stable rt today endDate _ hend
  · exact mkJSDate_normalized _ _ _ hday
  · unfold Part003.defFuel
    omega

theorem forecast_expansion_cap_witness :
    Part003.expandLoop sampleAfter3Def sampleMidnight2024
        (setMonthAdd sampleMidnight2024 12)
        (mkJSDate sampleAfter3Def.data_inicio.year
          (sampleAfter3Def.data_inicio.month - 1)
          sampleAfter3Def.data_inicio.day)
        (Part003.defFuel (setMonthAdd sampleMidnight2024 12)
          (mkJSDate sampleAfter3Def.data_inicio.year
            (sampleAfter3Def.data_inicio.month - 1)
            sampleAfter3Def.data_inicio.day) + 5)
        (mkJSDate sampleAfter3Def.data_inicio.year
          (sampleAfter3Def.data_inicio.month - 1)
          sampleAfter3Def.data_inicio.day) 0 =
      Part003.expandDef sampleMidnight2024 (setMonthAdd sampleMidnight2024 12)
        sampleAfter3Def :=
  forecast_expansion_cap.2.2.2 sampleAfter3Def sampleMidnight2024
    (setMonthAdd sampleMidnight2024 12) 5 (by decide) (by decide)
